import Mathlib

/-!
Verification development for the job-tracker repository.

The core of the repository is the Temporal-based application lifecycle
workflow (`ApplicationWorkflow` in `src/unnamed/part_003`, the variant that
carries the `cancelled` flag and validates the deadline input, matching the
spec's data model in section 3), together with the Temporal client wrapper
(`src/lib/temporal-client.ts`), the HTTP status route
(`src/unnamed/part_001`), and the resume extraction workflow
(`src/temporal/start-worker.ts`, `ResumeExtractionWorkflow`).

The workflow body is embedded as a small-step machine over its suspension
points (the deadline sleep, the in-flight reminder activity, the
grace-period sleep, the in-flight archive activity).  Signal handlers are
pure state transformers plus a list of emitted activity calls, exactly
mirroring the TypeScript handlers.  Activities are modelled as
instantaneous and the wall clock is threaded through the configuration so
timer arithmetic (deadline, grace period of 3 days) is visible in the
timestamped activity log.
-/

namespace JobTracker

/-- Milliseconds in one day, as written in the source: 24 * 60 * 60 * 1000. -/
def dayMs : Int := 24 * 60 * 60 * 1000

/-- Grace period of 3 days in milliseconds (`gracePeriodMs` in the source). -/
def gracePeriodMs : Int := 3 * 24 * 60 * 60 * 1000

/-- The user status string literal for an offer. -/
def offerS : String := "Offer"

/-- The user status string literal for a rejection. -/
def rejectedS : String := "Rejected"

/-- The user status string literal for a withdrawal. -/
def withdrawnS : String := "Withdrawn"

/-- The user status string literal for an interview. -/
def interviewS : String := "Interview"

/-- The terminal user statuses checked by the updateStatus handler:
`['Offer', 'Rejected', 'Withdrawn'].includes(newStatus)`. -/
def finalStatuses : List String := [offerS, rejectedS, withdrawnS]

/-- Workflow lifecycle status, the five-valued union type `WorkflowState.status`
in the source. -/
inductive WStatus
  | created
  | active
  | remind
  | gracePeriod
  | archived
deriving DecidableEq

/-- The workflow's in-memory state, mirroring the `WorkflowState` interface of
`src/unnamed/part_003` (timestamps are epoch milliseconds). -/
structure WorkflowState where
  applicationId : String
  status : WStatus
  deadline : Int
  originalDeadline : Int
  gracePeriodEnd : Option Int := none
  lastStatusUpdate : Option String := none
  lastStatusNotes : Option String := none
  cancelled : Bool := false
  createdAt : Int
  updatedAt : Int
deriving DecidableEq

/-- Activity calls the lifecycle workflow can emit. -/
inductive Activity
  | updateApplicationStatus (applicationId newStatus : String) (notes : Option String)
  | sendDeadlineReminder (applicationId : String) (deadline : Int)
  | archiveApplication (applicationId : String)
deriving DecidableEq

/-- The three signals of the lifecycle workflow. -/
inductive Sig
  | updateStatus (newStatus : String) (notes : Option String)
  | extendDeadline (days : Int)
  | cancelWorkflow (reason : Option String)
deriving DecidableEq

/-- The `updateStatus` signal handler (part_003 lines 84-106): record the
update, emit the `updateApplicationStatus` activity, set status to Archived on
a terminal value, set status to Active on Interview. -/
def updateStatusHandler (st : WorkflowState) (now : Int) (newStatus : String)
    (notes : Option String) : WorkflowState × List Activity :=
  let st1 := { st with lastStatusUpdate := some newStatus, lastStatusNotes := notes,
                       updatedAt := now }
  let acts := [Activity.updateApplicationStatus st.applicationId newStatus notes]
  if finalStatuses.contains newStatus then
    ({ st1 with status := WStatus.archived }, acts)
  else if newStatus = interviewS then
    ({ st1 with status := WStatus.active }, acts)
  else
    (st1, acts)

/-- The `extendDeadline` signal handler (part_003 lines 108-119): add
`days * 24 * 60 * 60 * 1000` to the current deadline.  Emits no activity. -/
def extendDeadlineHandler (st : WorkflowState) (now : Int) (days : Int) :
    WorkflowState × List Activity :=
  ({ st with deadline := st.deadline + days * 24 * 60 * 60 * 1000, updatedAt := now }, [])

/-- The `cancelWorkflow` signal handler (part_003 lines 121-126): set
`cancelled` and force status to Archived.  Emits no activity. -/
def cancelWorkflowHandler (st : WorkflowState) (now : Int) :
    WorkflowState × List Activity :=
  ({ st with cancelled := true, status := WStatus.archived, updatedAt := now }, [])

/-- Dispatch a signal to its handler. -/
def applySignal (st : WorkflowState) (sig : Sig) (now : Int) :
    WorkflowState × List Activity :=
  match sig with
  | Sig.updateStatus newStatus notes => updateStatusHandler st now newStatus notes
  | Sig.extendDeadline days => extendDeadlineHandler st now days
  | Sig.cancelWorkflow _ => cancelWorkflowHandler st now

/-- Program point of the workflow main body: each value is a suspension point
of the TypeScript control flow (part_003 lines 131-206). -/
inductive Phase
  | deadlineWait
  | reminding
  | graceWait
  | archiving
  | done
deriving DecidableEq

/-- A configuration of the running workflow: program point, in-memory state,
wall clock, the instant the initially armed deadline sleep fires, the
timestamped log of emitted activity calls, and whether the body exited
through its top-level error handler. -/
structure Config where
  phase : Phase
  st : WorkflowState
  clock : Int
  firstTimerTarget : Int
  log : List (Int × Activity)
  failed : Bool := false
deriving DecidableEq

/-- Events the environment can deliver to a suspended workflow: a signal, the
completion of the current sleep or in-flight activity (`advance`), or the
retry-exhausted failure of the in-flight activity (`activityFail`). -/
inductive Event
  | signal (sig : Sig) (now : Int)
  | advance
  | activityFail
deriving DecidableEq

/-- One step of the machine.  `advance` replays the main body from the current
suspension point to the next one, performing the source's post-sleep checks
`if (state.cancelled || state.status !== 'Active')` and
`if (state.cancelled || state.status !== 'GracePeriod')` verbatim; note the
absence of any such check between the reminder activity and the grace-period
sleep, as in the source.  `activityFail` models the catch block of the main
body: force status Archived, attempt one best-effort archive, terminate
failed. -/
def step (c : Config) (e : Event) : Config :=
  match e with
  | Event.signal sig now =>
    if c.phase = Phase.done then c
    else
      let pr := applySignal c.st sig now
      { c with st := pr.1, log := c.log ++ pr.2.map (fun a => (now, a)) }
  | Event.advance =>
    match c.phase with
    | Phase.deadlineWait =>
      let t := c.firstTimerTarget
      if c.st.cancelled = true ∨ c.st.status ≠ WStatus.active then
        { c with phase := Phase.done, clock := t }
      else
        { c with phase := Phase.reminding, clock := t,
                 st := { c.st with status := WStatus.remind, updatedAt := t },
                 log := c.log ++ [(t, Activity.sendDeadlineReminder c.st.applicationId c.st.deadline)] }
    | Phase.reminding =>
      { c with phase := Phase.graceWait,
               st := { c.st with gracePeriodEnd := some (c.clock + gracePeriodMs),
                                 status := WStatus.gracePeriod, updatedAt := c.clock } }
    | Phase.graceWait =>
      let t := c.clock + gracePeriodMs
      if c.st.cancelled = true ∨ c.st.status ≠ WStatus.gracePeriod then
        { c with phase := Phase.done, clock := t }
      else
        { c with phase := Phase.archiving, clock := t,
                 st := { c.st with status := WStatus.archived, updatedAt := t },
                 log := c.log ++ [(t, Activity.archiveApplication c.st.applicationId)] }
    | Phase.archiving => { c with phase := Phase.done }
    | Phase.done => c
  | Event.activityFail =>
    match c.phase with
    | Phase.reminding =>
      { c with phase := Phase.done, failed := true,
               st := { c.st with status := WStatus.archived, updatedAt := c.clock },
               log := c.log ++ [(c.clock, Activity.archiveApplication c.st.applicationId)] }
    | Phase.archiving =>
      { c with phase := Phase.done, failed := true,
               st := { c.st with status := WStatus.archived, updatedAt := c.clock },
               log := c.log ++ [(c.clock, Activity.archiveApplication c.st.applicationId)] }
    | _ => c

/-- Run a schedule of events. -/
def run (c : Config) : List Event → Config
  | [] => c
  | e :: es => run (step c e) es

/-- The initial `WorkflowState` literal of part_003 lines 74-81 (status
Created, deadline = originalDeadline = the parsed input). -/
def initWorkflowState (applicationId : String) (deadlineMs start : Int) : WorkflowState :=
  { applicationId := applicationId, status := WStatus.created, deadline := deadlineMs,
    originalDeadline := deadlineMs, createdAt := start, updatedAt := start }

/-- The configuration at the first suspension point: the try block sets status
Active, computes `timeUntilDeadline = deadline - now` once, and sleeps for it
only when positive, so the armed timer fires at `start + max 0 (deadline -
start)` and is never re-armed afterwards. -/
def initConfig (applicationId : String) (deadlineMs start : Int) : Config :=
  { phase := Phase.deadlineWait,
    st := { initWorkflowState applicationId deadlineMs start with
            status := WStatus.active, updatedAt := start },
    clock := start,
    firstTimerTarget := start + max 0 (deadlineMs - start),
    log := [] }

/-- A deadline argument as passed to `ApplicationWorkflow(applicationId,
deadline)`.  A `dateObj none` models a Date object whose `getTime()` is NaN,
`strInput none` models a string `new Date` cannot parse, `numInput none`
models a NaN number, `otherInput` models any other runtime value. -/
inductive DeadlineInput
  | dateObj (timeMs : Option Int)
  | strInput (parsed : Option Int)
  | numInput (timeMs : Option Int)
  | otherInput
deriving DecidableEq

/-- Error message of part_003 line 60 (non Date/string/number input). -/
def invalidDeadlineProvidedMsg : String := "Invalid deadline provided"

/-- Error message of part_003 line 65 (date could not be parsed). -/
def invalidDeadlineDateMsg : String := "Invalid deadline date"

/-- The deadline validation of part_003 lines 52-66: accept a Date as is,
convert a string or number through `new Date`, throw on any other value, then
throw if `isNaN(deadlineDate.getTime())`. -/
def parseDeadline : DeadlineInput → Except String Int
  | DeadlineInput.dateObj (some t) => Except.ok t
  | DeadlineInput.dateObj none => Except.error invalidDeadlineDateMsg
  | DeadlineInput.strInput (some t) => Except.ok t
  | DeadlineInput.strInput none => Except.error invalidDeadlineDateMsg
  | DeadlineInput.numInput (some t) => Except.ok t
  | DeadlineInput.numInput none => Except.error invalidDeadlineDateMsg
  | DeadlineInput.otherInput => Except.error invalidDeadlineProvidedMsg

/-- A deadline input is well formed when it is a Date, string or number that
denotes an actual instant (what the spec calls a well-formed date). -/
def wellFormedDeadline : DeadlineInput → Bool
  | DeadlineInput.dateObj (some _) => true
  | DeadlineInput.strInput (some _) => true
  | DeadlineInput.numInput (some _) => true
  | _ => false

/-- Starting the workflow: validation happens before any state is
initialized, any handler is registered, or any timer is armed, so an invalid
deadline produces an error and no configuration at all. -/
def startWorkflow (applicationId : String) (input : DeadlineInput) (start : Int) :
    Except String Config :=
  match parseDeadline input with
  | Except.error msg => Except.error msg
  | Except.ok d => Except.ok (initConfig applicationId d start)

/-- True when the activity entry is an archiveApplication call. -/
def isArchiveAct : Activity → Bool
  | Activity.archiveApplication _ => true
  | _ => false

/-- Number of archiveApplication calls in the configuration's log. -/
def archCount (c : Config) : Nat :=
  c.log.countP (fun ta => isArchiveAct ta.2)

/-- True for an `updateStatus("Interview")` signal. -/
def sigIsInterview : Sig → Bool
  | Sig.updateStatus ns _ => ns == interviewS
  | _ => false

/-- True for a `cancelWorkflow` signal. -/
def sigIsCancel : Sig → Bool
  | Sig.cancelWorkflow _ => true
  | _ => false

/-- True for an event delivering an `updateStatus("Interview")` signal. -/
def eventIsInterview : Event → Bool
  | Event.signal sig _ => sigIsInterview sig
  | _ => false

/-- True for an event delivering a `cancelWorkflow` signal. -/
def eventIsCancel : Event → Bool
  | Event.signal sig _ => sigIsCancel sig
  | _ => false

/-- The no-signal run of the lifecycle workflow: the deadline timer fires, the
reminder activity completes, the grace-period timer fires, the archive
activity completes. -/
def noSignalRun (applicationId : String) (deadlineMs start : Int) : Config :=
  run (initConfig applicationId deadlineMs start)
    [Event.advance, Event.advance, Event.advance, Event.advance]

/-!
Model of the Temporal server as seen through `src/lib/temporal-client.ts`:
a registry of live workflow runs keyed by workflowId.  Starting a workflow
whose id is already registered fails with
`WorkflowExecutionAlreadyStartedError`; `getHandle` merely names the id and
resolves to the registered run.
-/

/-- A workflow run registry: association list workflowId to runId, plus the
next fresh runId. -/
structure ServerState where
  runs : List (String × Nat)
  nextRun : Nat
deriving DecidableEq

/-- A client-side handle to one workflow run. -/
structure Handle where
  workflowId : String
  runId : Nat
deriving DecidableEq

/-- Errors `client.workflow.start` can surface. -/
inductive StartError
  | alreadyStarted
  | otherError
deriving DecidableEq

/-- The server's start operation: duplicate workflowId yields
`WorkflowExecutionAlreadyStartedError` and leaves the registry unchanged. -/
def serverStart (s : ServerState) (wid : String) : ServerState × Except StartError Handle :=
  match s.runs.find? (fun r => r.1 == wid) with
  | some _ => (s, Except.error StartError.alreadyStarted)
  | none =>
    ({ runs := (wid, s.nextRun) :: s.runs, nextRun := s.nextRun + 1 },
     Except.ok { workflowId := wid, runId := s.nextRun })

/-- `client.workflow.getHandle(workflowId)`: a handle to the registered run
with that id (runId 0 when nothing is registered, matching the fact that the
client constructs a handle without checking existence). -/
def getHandle (s : ServerState) (wid : String) : Handle :=
  { workflowId := wid,
    runId := ((s.runs.find? (fun r => r.1 == wid)).map Prod.snd).getD 0 }

/-- The deterministic workflowId derived from the application id
(temporal-client.ts line 52). -/
def workflowIdFor (applicationId : String) : String :=
  String.append ("application-workflow-") applicationId

namespace TemporalClient

/-- `TemporalClient.startApplicationWorkflow` (temporal-client.ts lines
42-79): try to start; when the server answers
`WorkflowExecutionAlreadyStartedError`, return a handle to the existing run
instead of erroring. -/
def startApplicationWorkflow (s : ServerState) (applicationId : String) :
    ServerState × Except StartError Handle :=
  let wid := workflowIdFor applicationId
  match serverStart s wid with
  | (s1, Except.ok h) => (s1, Except.ok h)
  | (s1, Except.error e) =>
    if e = StartError.alreadyStarted then (s1, Except.ok (getHandle s1 wid))
    else (s1, Except.error e)

/-- `TemporalClient.workflowExists` (temporal-client.ts lines 81-95):
`describe()` succeeds exactly for a registered workflowId; a
`WorkflowNotFoundError` becomes `false`. -/
def workflowExists (s : ServerState) (wid : String) : Bool :=
  (s.runs.find? (fun r => r.1 == wid)).isSome

/-- A signal as delivered by `TemporalClient.signalWorkflow`. -/
structure SentSignal where
  workflowId : String
  sig : Sig
deriving DecidableEq

/-- `TemporalClient.updateStatus` (temporal-client.ts lines 110-120): check
existence first; a missing workflow yields `false` with no signal sent. -/
def updateStatus (s : ServerState) (wid : String) (status : String)
    (notes : Option String) : Bool × List SentSignal :=
  if workflowExists s wid then
    (true, [{ workflowId := wid, sig := Sig.updateStatus status notes }])
  else
    (false, [])

/-- `TemporalClient.extendDeadline` (temporal-client.ts lines 122-132): same
shape as `updateStatus`. -/
def extendDeadline (s : ServerState) (wid : String) (days : Int) :
    Bool × List SentSignal :=
  if workflowExists s wid then
    (true, [{ workflowId := wid, sig := Sig.extendDeadline days }])
  else
    (false, [])

/-- `TemporalClient.cancelWorkflow` (temporal-client.ts lines 134-149): check
existence first; a missing workflow yields `false` and the registry is left
untouched; otherwise the run is cancelled (removed from the registry). -/
def cancelWorkflow (s : ServerState) (wid : String) : Bool × ServerState :=
  if workflowExists s wid then
    (true, { s with runs := s.runs.filter (fun r => ¬ (r.1 == wid)) })
  else
    (false, s)

end TemporalClient

/-- The Application row fields the status, update and delete routes touch. -/
structure AppRow where
  id : String
  status : String
  notes : Option String := none
  deadline : Int := 0
  workflowId : Option String := none
deriving DecidableEq

/-- Outcome of the POST status route: HTTP status code, the `success` flag of
the JSON body, the resulting application row (when one exists), and the
signals actually delivered. -/
structure RouteResult where
  httpStatus : Nat
  success : Bool
  row : Option AppRow
  sent : List TemporalClient.SentSignal
deriving DecidableEq

/-- `POST /api/applications/[id]/status` (part_001 lines 155-224), after input
validation: 404 when the row is missing; otherwise persist the status, then —
only when a workflowId is stored — signal the workflow, and when the client
reports the workflow missing (`false`), clear the stale workflowId and still
answer 200 success. -/
def postStatusRoute (srv : ServerState) (row? : Option AppRow) (status : String)
    (notes : Option String) : RouteResult :=
  match row? with
  | none => { httpStatus := 404, success := false, row := none, sent := [] }
  | some row =>
    let row1 := { row with status := status, notes := notes }
    match row.workflowId with
    | none => { httpStatus := 200, success := true, row := some row1, sent := [] }
    | some wid =>
      let pr := TemporalClient.updateStatus srv wid status notes
      if pr.1 then
        { httpStatus := 200, success := true, row := some row1, sent := pr.2 }
      else
        { httpStatus := 200, success := true,
          row := some { row1 with workflowId := none }, sent := pr.2 }

/-- The Application status string for an archived application, written by the
service when a row is archived. -/
def archivedS : String := "Archived"

/-- `Math.ceil(a / b)` on integers for positive b, as used by the PUT route
to convert a deadline difference in milliseconds to whole days. -/
def jsCeilDiv (a b : Int) : Int := -(Int.ediv (-a) b)

/-- `PUT /api/applications/[id]` (route.ts lines 45-113), restricted to the
fields this claim concerns: 404 when the row is missing; otherwise persist
the update, and — only when a new deadline is supplied and a workflowId is
stored — signal `extendDeadline` with `Math.ceil((new - old) / day)` days;
when the client reports the workflow missing (`false`), clear the stale
workflowId and still answer 200 success. -/
def putApplicationRoute (srv : ServerState) (row? : Option AppRow)
    (newDeadline : Option Int) : RouteResult :=
  match row? with
  | none => { httpStatus := 404, success := false, row := none, sent := [] }
  | some row =>
    let row1 := { row with deadline := newDeadline.getD row.deadline }
    match newDeadline, row.workflowId with
    | some nd, some wid =>
      let days := jsCeilDiv (nd - row.deadline) (1000 * 60 * 60 * 24)
      let pr := TemporalClient.extendDeadline srv wid days
      if pr.1 then
        { httpStatus := 200, success := true, row := some row1, sent := pr.2 }
      else
        { httpStatus := 200, success := true,
          row := some { row1 with workflowId := none }, sent := pr.2 }
    | _, _ => { httpStatus := 200, success := true, row := some row1, sent := [] }

/-- Outcome of the DELETE route: HTTP answer, the resulting application row,
and the workflow registry after any cancellation. -/
structure DeleteResult where
  httpStatus : Nat
  success : Bool
  row : Option AppRow
  srv : ServerState
deriving DecidableEq

/-- `DELETE /api/applications/[id]` (route.ts lines 116-165): 404 when the
row is missing; otherwise, when a workflowId is stored, ask the client to
cancel — a missing workflow yields `false`, which the route only notes, it
never calls `setWorkflowId(id, null)` — then archive the row through
`ApplicationService.archiveApplication` (part_010 lines 468-490: sets status
Archived and appends a timeline event, leaving `workflowId` untouched) and
answer 200 success. -/
def deleteApplicationRoute (srv : ServerState) (row? : Option AppRow) :
    DeleteResult :=
  match row? with
  | none => { httpStatus := 404, success := false, row := none, srv := srv }
  | some row =>
    match row.workflowId with
    | none =>
      { httpStatus := 200, success := true,
        row := some { row with status := archivedS }, srv := srv }
    | some wid =>
      let pr := TemporalClient.cancelWorkflow srv wid
      { httpStatus := 200, success := true,
        row := some { row with status := archivedS }, srv := pr.2 }

/-!
Resume extraction workflow (`ResumeExtractionWorkflow` in
src/temporal/start-worker.ts lines 91-137).  Each step is a retryable
activity; `env` records, per fallible step, whether the activity ultimately
succeeds after its bounded retries.  The try/catch control flow is
linearized: on the first ultimately-failing step the catch block records the
Failed status and the workflow rethrows.
-/

/-- Resume extraction status strings. -/
def processingS : String := "Processing"

/-- Completed resume extraction status string. -/
def completedS : String := "Completed"

/-- Failed resume extraction status string. -/
def failedS : String := "Failed"

/-- Ultimate outcomes of the three fallible pipeline steps. -/
structure ResumeEnv where
  downloadOk : Bool := true
  extractOk : Bool := true
  saveOk : Bool := true
deriving DecidableEq

/-- Activity calls of the resume extraction workflow. -/
inductive RAct
  | setStatus (applicationId status : String)
  | download (resumeUrl : String)
  | extract (applicationId : String)
  | save (applicationId : String)
  | triggerCoverLetter (applicationId : String)
deriving DecidableEq

/-- Error message for a failed download step. -/
def downloadErr : String := "download failed"

/-- Error message for a failed extract step. -/
def extractErr : String := "extract failed"

/-- Error message for a failed save step. -/
def saveErr : String := "save failed"

/-- The pipeline body: set Processing, download, extract, save, set Completed,
trigger cover-letter generation; the catch block sets Failed and rethrows, so
a failing step suppresses every later step and the trigger. -/
def runResumeExtraction (env : ResumeEnv) (applicationId resumeUrl : String) :
    List RAct × Except String Unit :=
  let l0 := [RAct.setStatus applicationId processingS]
  if env.downloadOk = false then
    (l0 ++ [RAct.setStatus applicationId failedS], Except.error downloadErr)
  else
    let l1 := l0 ++ [RAct.download resumeUrl]
    if env.extractOk = false then
      (l1 ++ [RAct.setStatus applicationId failedS], Except.error extractErr)
    else
      let l2 := l1 ++ [RAct.extract applicationId]
      if env.saveOk = false then
        (l2 ++ [RAct.setStatus applicationId failedS], Except.error saveErr)
      else
        (l2 ++ [RAct.save applicationId, RAct.setStatus applicationId completedS,
                RAct.triggerCoverLetter applicationId], Except.ok ())

/-- Concrete application id used by witnesses and counterexamples. -/
def testAppId : String := "app-1"

/-- Concrete resume url used by witnesses. -/
def testUrl : String := "resume-url"

/-- Phase/status invariant: which queryable statuses are possible at each
program point, for arbitrary schedules of signals, timer firings and
activity failures. -/
def phaseStatusInv (c : Config) : Prop :=
  (c.phase = Phase.deadlineWait →
    c.st.status = WStatus.active ∨ c.st.status = WStatus.archived) ∧
  (c.phase = Phase.reminding →
    c.st.status = WStatus.remind ∨ c.st.status = WStatus.active ∨
    c.st.status = WStatus.archived) ∧
  (c.phase = Phase.graceWait →
    c.st.status = WStatus.gracePeriod ∨ c.st.status = WStatus.active ∨
    c.st.status = WStatus.archived) ∧
  (c.phase = Phase.archiving →
    c.st.status = WStatus.archived ∨ c.st.status = WStatus.active) ∧
  (c.phase = Phase.done →
    c.st.status = WStatus.active ∨ c.st.status = WStatus.gracePeriod ∨
    c.st.status = WStatus.archived)

/-- Strengthened invariant for schedules that deliver no
`updateStatus("Interview")` and no `cancelWorkflow` signal: the only status
a handler can then force is Archived, so every program point pins the status
down to its nominal value or Archived, and termination implies Archived. -/
def noResetInv (c : Config) : Prop :=
  c.st.cancelled = false ∧
  (c.phase = Phase.deadlineWait →
    c.st.status = WStatus.active ∨ c.st.status = WStatus.archived) ∧
  (c.phase = Phase.reminding →
    c.st.status = WStatus.remind ∨ c.st.status = WStatus.archived) ∧
  (c.phase = Phase.graceWait →
    c.st.status = WStatus.gracePeriod ∨ c.st.status = WStatus.archived) ∧
  (c.phase = Phase.archiving → c.st.status = WStatus.archived) ∧
  (c.phase = Phase.done → c.st.status = WStatus.archived)

/-- Archive-count invariant for failure-free schedules: before the grace
period has elapsed no archive call has been made, and overall at most one is
ever made. -/
def archInv (c : Config) : Prop :=
  ((c.phase = Phase.deadlineWait ∨ c.phase = Phase.reminding ∨
    c.phase = Phase.graceWait) → archCount c = 0) ∧
  archCount c ≤ 1

lemma step_done (c : Config) (e : Event) (h : c.phase = Phase.done) : step c e = c := by
  cases e with
  | signal sig now => simp [step, h]
  | advance => simp [step, h]
  | activityFail =>
    rcases c with ⟨ph, st, clock, ftt, log, failed⟩
    simp only at h
    subst h
    rfl

lemma run_done (c : Config) (es : List Event) (h : c.phase = Phase.done) :
    run c es = c := by
  induction es generalizing c with
  | nil => rfl
  | cons e es ih =>
    simp only [run, step_done c e h]
    exact ih c h

lemma updateStatusHandler_acts (st : WorkflowState) (now : Int) (ns : String)
    (notes : Option String) :
    (updateStatusHandler st now ns notes).2 =
      [Activity.updateApplicationStatus st.applicationId ns notes] := by
  simp only [updateStatusHandler]
  split_ifs <;> rfl

lemma applySignal_status (st : WorkflowState) (sig : Sig) (now : Int) :
    (applySignal st sig now).1.status = st.status ∨
    (applySignal st sig now).1.status = WStatus.archived ∨
    (applySignal st sig now).1.status = WStatus.active := by
  cases sig with
  | updateStatus ns notes =>
    simp only [applySignal, updateStatusHandler]
    split_ifs
    · exact Or.inr (Or.inl rfl)
    · exact Or.inr (Or.inr rfl)
    · exact Or.inl rfl
  | extendDeadline days => exact Or.inl rfl
  | cancelWorkflow r => exact Or.inr (Or.inl rfl)

lemma applySignal_status_noInterview (st : WorkflowState) (sig : Sig) (now : Int)
    (h : sigIsInterview sig = false) :
    (applySignal st sig now).1.status = st.status ∨
    (applySignal st sig now).1.status = WStatus.archived := by
  cases sig with
  | updateStatus ns notes =>
    simp only [sigIsInterview, beq_eq_false_iff_ne, ne_eq] at h
    simp only [applySignal, updateStatusHandler]
    split_ifs with h1
    · exact Or.inr rfl
    · exact Or.inl rfl
  | extendDeadline days => exact Or.inl rfl
  | cancelWorkflow r => exact Or.inr rfl

lemma applySignal_cancelled_noCancel (st : WorkflowState) (sig : Sig) (now : Int)
    (h : sigIsCancel sig = false) :
    (applySignal st sig now).1.cancelled = st.cancelled := by
  cases sig with
  | updateStatus ns notes =>
    simp only [applySignal, updateStatusHandler]
    split_ifs <;> rfl
  | extendDeadline days => rfl
  | cancelWorkflow r => simp [sigIsCancel] at h

lemma applySignal_acts_no_archive (st : WorkflowState) (sig : Sig) (now : Int) :
    ((applySignal st sig now).2.map (fun a => (now, a))).countP
      (fun ta => isArchiveAct ta.2) = 0 := by
  cases sig with
  | updateStatus ns notes =>
    simp [applySignal, updateStatusHandler_acts, isArchiveAct]
  | extendDeadline days => rfl
  | cancelWorkflow r => rfl

lemma archCount_signal (c : Config) (sig : Sig) (now : Int) :
    archCount (step c (Event.signal sig now)) = archCount c := by
  by_cases h : c.phase = Phase.done
  · rw [step_done c _ h]
  · simp only [step, if_neg h, archCount, List.countP_append,
      applySignal_acts_no_archive, Nat.add_zero]

lemma phase_signal (c : Config) (sig : Sig) (now : Int) :
    (step c (Event.signal sig now)).phase = c.phase := by
  by_cases h : c.phase = Phase.done
  · rw [step_done c _ h]
  · simp [step, if_neg h]

lemma phaseStatusInv_init (a : String) (d s : Int) :
    phaseStatusInv (initConfig a d s) := by
  simp [phaseStatusInv, initConfig, initWorkflowState]

lemma phaseStatusInv_step (c : Config) (e : Event) (h : phaseStatusInv c) :
    phaseStatusInv (step c e) := by
  cases e with
  | signal sig now =>
    by_cases hp : c.phase = Phase.done
    · rwa [step_done c _ hp]
    · obtain ⟨h1, h2, h3, h4, h5⟩ := h
      have hst := applySignal_status c.st sig now
      refine ⟨fun hph => ?_, fun hph => ?_, fun hph => ?_, fun hph => ?_,
        fun hph => ?_⟩ <;>
        rw [phase_signal] at hph <;>
        simp only [step, if_neg hp]
      · rcases hst with hs | hs | hs
        · rw [hs]; exact h1 hph
        · rw [hs]; exact Or.inr rfl
        · rw [hs]; exact Or.inl rfl
      · rcases hst with hs | hs | hs
        · rw [hs]; exact h2 hph
        · rw [hs]; exact Or.inr (Or.inr rfl)
        · rw [hs]; exact Or.inr (Or.inl rfl)
      · rcases hst with hs | hs | hs
        · rw [hs]; exact h3 hph
        · rw [hs]; exact Or.inr (Or.inr rfl)
        · rw [hs]; exact Or.inr (Or.inl rfl)
      · rcases hst with hs | hs | hs
        · rw [hs]; exact h4 hph
        · rw [hs]; exact Or.inl rfl
        · rw [hs]; exact Or.inr rfl
      · exact absurd hph hp
  | advance =>
    obtain ⟨ph, st, clock, ftt, log, fl⟩ := c
    obtain ⟨h1, h2, h3, h4, h5⟩ := h
    cases ph with
    | deadlineWait =>
      simp only [step]
      split_ifs with hg
      · rcases h1 rfl with hs | hs <;>
          replace hs : st.status = _ := hs <;> simp [phaseStatusInv, hs]
      · simp [phaseStatusInv]
    | reminding => simp [phaseStatusInv, step]
    | graceWait =>
      simp only [step]
      split_ifs with hg
      · rcases h3 rfl with hs | hs | hs <;>
          replace hs : st.status = _ := hs <;> simp [phaseStatusInv, hs]
      · simp [phaseStatusInv]
    | archiving =>
      rcases h4 rfl with hs | hs <;>
        replace hs : st.status = _ := hs <;> simp [phaseStatusInv, step, hs]
    | done =>
      rcases h5 rfl with hs | hs | hs <;>
        replace hs : st.status = _ := hs <;> simp [phaseStatusInv, step, hs]
  | activityFail =>
    obtain ⟨ph, st, clock, ftt, log, fl⟩ := c
    obtain ⟨h1, h2, h3, h4, h5⟩ := h
    cases ph with
    | reminding => simp [phaseStatusInv, step]
    | archiving => simp [phaseStatusInv, step]
    | deadlineWait => exact ⟨h1, h2, h3, h4, h5⟩
    | graceWait => exact ⟨h1, h2, h3, h4, h5⟩
    | done => exact ⟨h1, h2, h3, h4, h5⟩

lemma phaseStatusInv_run (c : Config) (es : List Event) (h : phaseStatusInv c) :
    phaseStatusInv (run c es) := by
  induction es generalizing c with
  | nil => exact h
  | cons e es ih => exact ih _ (phaseStatusInv_step c e h)

lemma noResetInv_init (a : String) (d s : Int) :
    noResetInv (initConfig a d s) := by
  simp [noResetInv, initConfig, initWorkflowState]

lemma noResetInv_step (c : Config) (e : Event)
    (he1 : eventIsInterview e = false) (he2 : eventIsCancel e = false)
    (h : noResetInv c) : noResetInv (step c e) := by
  cases e with
  | signal sig now =>
    by_cases hp : c.phase = Phase.done
    · rwa [step_done c _ hp]
    · obtain ⟨h0, h1, h2, h3, h4, h5⟩ := h
      have hst := applySignal_status_noInterview c.st sig now he1
      have hca := applySignal_cancelled_noCancel c.st sig now he2
      refine ⟨?_, fun hph => ?_, fun hph => ?_, fun hph => ?_, fun hph => ?_,
        fun hph => ?_⟩
      · show (step c (Event.signal sig now)).st.cancelled = false
        simp only [step, if_neg hp]
        rw [hca]
        exact h0
      all_goals rw [phase_signal] at hph
      all_goals simp only [step, if_neg hp]
      · rcases hst with hs | hs
        · rw [hs]; exact h1 hph
        · rw [hs]; exact Or.inr rfl
      · rcases hst with hs | hs
        · rw [hs]; exact h2 hph
        · rw [hs]; exact Or.inr rfl
      · rcases hst with hs | hs
        · rw [hs]; exact h3 hph
        · rw [hs]; exact Or.inr rfl
      · rcases hst with hs | hs
        · rw [hs]; exact h4 hph
        · rw [hs]
      · exact absurd hph hp
  | advance =>
    obtain ⟨ph, st, clock, ftt, log, fl⟩ := c
    obtain ⟨h0, h1, h2, h3, h4, h5⟩ := h
    replace h0 : st.cancelled = false := h0
    cases ph with
    | deadlineWait =>
      simp only [step]
      split_ifs with hg
      · have hs : st.status = WStatus.archived := by
          rcases hg with hg | hg
          · replace hg : st.cancelled = true := hg
            rw [h0] at hg
            cases hg
          · rcases h1 rfl with hr | hr
            · exact absurd hr hg
            · exact hr
        simp [noResetInv, hs, h0]
      · simp [noResetInv, h0]
    | reminding => simp [noResetInv, step, h0]
    | graceWait =>
      simp only [step]
      split_ifs with hg
      · have hs : st.status = WStatus.archived := by
          rcases hg with hg | hg
          · replace hg : st.cancelled = true := hg
            rw [h0] at hg
            cases hg
          · rcases h3 rfl with hr | hr
            · exact absurd hr hg
            · exact hr
        simp [noResetInv, hs, h0]
      · simp [noResetInv, h0]
    | archiving =>
      have hs : st.status = WStatus.archived := h4 rfl
      simp [noResetInv, step, hs, h0]
    | done =>
      have hs : st.status = WStatus.archived := h5 rfl
      simp [noResetInv, step, hs, h0]
  | activityFail =>
    obtain ⟨ph, st, clock, ftt, log, fl⟩ := c
    obtain ⟨h0, h1, h2, h3, h4, h5⟩ := h
    replace h0 : st.cancelled = false := h0
    cases ph with
    | reminding => simp [noResetInv, step, h0]
    | archiving => simp [noResetInv, step, h0]
    | deadlineWait => exact ⟨h0, h1, h2, h3, h4, h5⟩
    | graceWait => exact ⟨h0, h1, h2, h3, h4, h5⟩
    | done => exact ⟨h0, h1, h2, h3, h4, h5⟩

lemma noResetInv_run (es : List Event) : ∀ c : Config,
    (∀ e ∈ es, eventIsInterview e = false ∧ eventIsCancel e = false) →
    noResetInv c → noResetInv (run c es) := by
  induction es with
  | nil => exact fun c _ h => h
  | cons e es ih =>
    intro c hes h
    exact ih (step c e) (fun x hx => hes x (List.mem_cons_of_mem e hx))
      (noResetInv_step c e (hes e (List.mem_cons_self e es)).1
        (hes e (List.mem_cons_self e es)).2 h)

lemma archInv_init (a : String) (d s : Int) : archInv (initConfig a d s) := by
  simp [archInv, archCount, initConfig, initWorkflowState]

lemma isArchiveAct_upd (a ns : String) (notes : Option String) :
    isArchiveAct (Activity.updateApplicationStatus a ns notes) = false := rfl

lemma isArchiveAct_rem (a : String) (d : Int) :
    isArchiveAct (Activity.sendDeadlineReminder a d) = false := rfl

lemma isArchiveAct_arch (a : String) :
    isArchiveAct (Activity.archiveApplication a) = true := rfl

lemma archInv_step (c : Config) (e : Event) (he : e ≠ Event.activityFail)
    (h : archInv c) : archInv (step c e) := by
  obtain ⟨h1, h2⟩ := h
  cases e with
  | signal sig now =>
    refine ⟨fun hph => ?_, ?_⟩
    · rw [archCount_signal]
      exact h1 (by rwa [phase_signal] at hph)
    · rw [archCount_signal]; exact h2
  | advance =>
    obtain ⟨ph, st, clock, ftt, log, fl⟩ := c
    replace h2 : List.countP (fun ta => isArchiveAct ta.2) log ≤ 1 := h2
    cases ph with
    | deadlineWait =>
      have hz : List.countP (fun ta => isArchiveAct ta.2) log = 0 :=
        h1 (Or.inl rfl)
      simp only [step]
      split_ifs with hg
      · refine ⟨fun hph => ?_, h2⟩
        simp at hph
      · refine ⟨fun _ => ?_, ?_⟩
        · simp [archCount, List.countP_append, List.countP_cons, isArchiveAct_rem, hz]
        · simp [archCount, List.countP_append, List.countP_cons, isArchiveAct_rem, hz]
    | reminding =>
      have hz : List.countP (fun ta => isArchiveAct ta.2) log = 0 :=
        h1 (Or.inr (Or.inl rfl))
      exact ⟨fun _ => hz, h2⟩
    | graceWait =>
      have hz : List.countP (fun ta => isArchiveAct ta.2) log = 0 :=
        h1 (Or.inr (Or.inr rfl))
      simp only [step]
      split_ifs with hg
      · refine ⟨fun hph => ?_, h2⟩
        simp at hph
      · refine ⟨fun hph => ?_, ?_⟩
        · simp at hph
        · simp [archCount, List.countP_append, List.countP_cons, isArchiveAct_arch, hz]
    | archiving =>
      refine ⟨fun hph => ?_, h2⟩
      simp [step] at hph
    | done => exact ⟨h1, h2⟩
  | activityFail => exact absurd rfl he

lemma archInv_run (es : List Event) : ∀ c : Config,
    (∀ e ∈ es, e ≠ Event.activityFail) → archInv c → archInv (run c es) := by
  induction es with
  | nil => exact fun c _ h => h
  | cons e es ih =>
    intro c hes h
    exact ih (step c e) (fun x hx => hes x (List.mem_cons_of_mem e hx))
      (archInv_step c e (hes e (List.mem_cons_self e es)) h)

lemma updateStatusHandler_final (st : WorkflowState) (now : Int) (ns : String)
    (notes : Option String) (hns : finalStatuses.contains ns = true) :
    (updateStatusHandler st now ns notes).1.status = WStatus.archived := by
  simp only [updateStatusHandler]
  rw [if_pos hns]

lemma advance_gate_deadlineWait (c : Config) (hph : c.phase = Phase.deadlineWait)
    (harch : c.st.status = WStatus.archived) :
    step c Event.advance =
      { c with phase := Phase.done, clock := c.firstTimerTarget } := by
  obtain ⟨ph, st, clock, ftt, log, fl⟩ := c
  replace hph : ph = Phase.deadlineWait := hph
  subst hph
  replace harch : st.status = WStatus.archived := harch
  simp only [step]
  rw [if_pos (Or.inr (fun hc => by rw [harch] at hc; cases hc))]

lemma advance_gate_graceWait (c : Config) (hph : c.phase = Phase.graceWait)
    (harch : c.st.status = WStatus.archived) :
    step c Event.advance =
      { c with phase := Phase.done, clock := c.clock + gracePeriodMs } := by
  obtain ⟨ph, st, clock, ftt, log, fl⟩ := c
  replace hph : ph = Phase.graceWait := hph
  subst hph
  replace harch : st.status = WStatus.archived := harch
  simp only [step]
  rw [if_pos (Or.inr (fun hc => by rw [harch] at hc; cases hc))]

/-- C1 (amended): delivering `updateStatus("Interview")` a moment before the
deadline timer fires does NOT suppress the reminder.  The Interview handler
sets the status to Active, so the post-sleep check
`state.cancelled || state.status !== 'Active'` does not return early: the
workflow transitions to Remind at the armed firing instant and invokes the
send-deadline-reminder activity. -/
theorem C1_timer_signal_race_amended (a : String) (d s t : Int)
    (notes : Option String) :
    (run (initConfig a d s)
      [Event.signal (Sig.updateStatus interviewS notes) t, Event.advance]).phase =
        Phase.reminding ∧
    (run (initConfig a d s)
      [Event.signal (Sig.updateStatus interviewS notes) t, Event.advance]).st.status =
        WStatus.remind ∧
    (run (initConfig a d s)
      [Event.signal (Sig.updateStatus interviewS notes) t, Event.advance]).log =
      [(t, Activity.updateApplicationStatus a interviewS notes),
       (s + max 0 (d - s), Activity.sendDeadlineReminder a d)] :=
  ⟨rfl, rfl, rfl⟩

/-- C1 counterexample: at deadline 100 with start 0, an
`updateStatus("Interview")` signal delivered at time 50 leaves the status
Remind (not Active) after the timer fires, and the reminder activity has
been invoked — refuting the claim that the final state is Active and the
reminder is never invoked. -/
theorem C1_counterexample :
    (run (initConfig testAppId 100 0)
      [Event.signal (Sig.updateStatus interviewS none) 50, Event.advance]).st.status ≠
        WStatus.active ∧
    (100, Activity.sendDeadlineReminder testAppId 100) ∈
      (run (initConfig testAppId 100 0)
        [Event.signal (Sig.updateStatus interviewS none) 50, Event.advance]).log := by
  exact ⟨by decide, by decide⟩

/-- C3 (amended): `extendDeadline(days)` received while the workflow is in
Active sets the deadline field to exactly the current deadline plus
`days * 24h` (not now plus days), but it does not re-arm the already started
sleep: the workflow still transitions to Remind at the instant derived from
the original deadline (the reminder activity is even passed the extended
deadline value). -/
theorem C3_extend_deadline_amended (a : String) (d s days t : Int) :
    (run (initConfig a d s)
      [Event.signal (Sig.extendDeadline days) t, Event.advance]).st.deadline =
        d + days * 24 * 60 * 60 * 1000 ∧
    (run (initConfig a d s)
      [Event.signal (Sig.extendDeadline days) t, Event.advance]).st.status =
        WStatus.remind ∧
    (run (initConfig a d s)
      [Event.signal (Sig.extendDeadline days) t, Event.advance]).log =
      [(s + max 0 (d - s),
        Activity.sendDeadlineReminder a (d + days * 24 * 60 * 60 * 1000))] :=
  ⟨rfl, rfl, rfl⟩

/-- C3 counterexample: with start 0 and deadline 100, `extendDeadline(7)` at
time 50 extends the deadline field to 604800100, yet the workflow still
transitions to Remind when the original deadline (instant 100) elapses —
refuting the claim that after the extension the workflow does not transition
to Remind at the original deadline. -/
theorem C3_counterexample :
    (run (initConfig testAppId 100 0)
      [Event.signal (Sig.extendDeadline 7) 50, Event.advance]).st.status =
        WStatus.remind ∧
    (run (initConfig testAppId 100 0)
      [Event.signal (Sig.extendDeadline 7) 50, Event.advance]).log =
      [(100, Activity.sendDeadlineReminder testAppId 604800100)] := by
  exact ⟨by decide, by decide⟩

/-- C4: in the absence of signals, for start instant s and deadline d the
Remind transition (and reminder activity) happens at d when d is not in the
past, and the grace period ends with the archive activity exactly
`gracePeriodMs` (3 days) later; a deadline at or before the start does not
error — the workflow transitions immediately at s and archives at
s + 3 days. -/
theorem C4_grace_period_math (a : String) (d s : Int) :
    (noSignalRun a d s).phase = Phase.done ∧
    (noSignalRun a d s).failed = false ∧
    (s ≤ d → (noSignalRun a d s).log =
      [(d, Activity.sendDeadlineReminder a d),
       (d + gracePeriodMs, Activity.archiveApplication a)]) ∧
    (d ≤ s → (noSignalRun a d s).log =
      [(s, Activity.sendDeadlineReminder a d),
       (s + gracePeriodMs, Activity.archiveApplication a)]) := by
  have hlog : (noSignalRun a d s).log =
      [(s + max 0 (d - s), Activity.sendDeadlineReminder a d),
       (s + max 0 (d - s) + gracePeriodMs, Activity.archiveApplication a)] := rfl
  refine ⟨rfl, rfl, fun hsd => ?_, fun hds => ?_⟩
  · rw [hlog]
    have h1 : s + max 0 (d - s) = d := by omega
    rw [h1]
  · rw [hlog]
    have h1 : s + max 0 (d - s) = s := by omega
    rw [h1]

/-- C4 witness: start 0, deadline 100 — reminder at 100, archive at
100 + 3 days. -/
theorem C4_witness :
    (noSignalRun testAppId 100 0).log =
      [(100, Activity.sendDeadlineReminder testAppId 100),
       (100 + gracePeriodMs, Activity.archiveApplication testAppId)] :=
  (C4_grace_period_math testAppId 100 0).2.2.1 (by decide)

/-- C2 (amended): a terminal `updateStatus` (Offer, Rejected or Withdrawn)
delivered while the workflow is suspended in the deadline sleep or in the
grace-period sleep sets the status to Archived, and the next timer wake-up
completes the run with no further activity and no timer-driven transition;
however this short-circuit does NOT hold when the signal lands while the
reminder activity is in flight (state Remind) — see the counterexample. -/
theorem C2_terminal_shortcircuit_amended (c : Config) (ns : String)
    (notes : Option String) (now : Int)
    (hns : finalStatuses.contains ns = true)
    (hph : c.phase = Phase.deadlineWait ∨ c.phase = Phase.graceWait) :
    (step c (Event.signal (Sig.updateStatus ns notes) now)).st.status =
        WStatus.archived ∧
    (step c (Event.signal (Sig.updateStatus ns notes) now)).log =
      c.log ++ [(now, Activity.updateApplicationStatus c.st.applicationId ns notes)] ∧
    (step (step c (Event.signal (Sig.updateStatus ns notes) now))
        Event.advance).phase = Phase.done ∧
    (step (step c (Event.signal (Sig.updateStatus ns notes) now))
        Event.advance).log =
      (step c (Event.signal (Sig.updateStatus ns notes) now)).log ∧
    (∀ es, run (step (step c (Event.signal (Sig.updateStatus ns notes) now))
        Event.advance) es =
      step (step c (Event.signal (Sig.updateStatus ns notes) now)) Event.advance) := by
  have hpd : c.phase ≠ Phase.done := by
    rcases hph with h | h <;> rw [h] <;> intro hc <;> cases hc
  have hst1 : (step c (Event.signal (Sig.updateStatus ns notes) now)).st.status =
      WStatus.archived := by
    simp only [step, if_neg hpd]
    exact updateStatusHandler_final c.st now ns notes hns
  have hph1 : (step c (Event.signal (Sig.updateStatus ns notes) now)).phase =
      c.phase := phase_signal c _ now
  have hlog1 : (step c (Event.signal (Sig.updateStatus ns notes) now)).log =
      c.log ++ [(now, Activity.updateApplicationStatus c.st.applicationId ns notes)] := by
    simp only [step, if_neg hpd]
    show c.log ++ (applySignal c.st (Sig.updateStatus ns notes) now).2.map
      (fun a => (now, a)) = _
    rw [show (applySignal c.st (Sig.updateStatus ns notes) now).2 =
      [Activity.updateApplicationStatus c.st.applicationId ns notes] from
      updateStatusHandler_acts c.st now ns notes]
    rfl
  have hadv : step (step c (Event.signal (Sig.updateStatus ns notes) now))
      Event.advance =
      { step c (Event.signal (Sig.updateStatus ns notes) now) with
        phase := Phase.done,
        clock := if c.phase = Phase.deadlineWait then
            (step c (Event.signal (Sig.updateStatus ns notes) now)).firstTimerTarget
          else
            (step c (Event.signal (Sig.updateStatus ns notes) now)).clock +
              gracePeriodMs } := by
    rcases hph with h | h
    · rw [if_pos h]
      exact advance_gate_deadlineWait _ (by rw [hph1, h]) hst1
    · rw [if_neg (by rw [h]; intro hc; cases hc)]
      exact advance_gate_graceWait _ (by rw [hph1, h]) hst1
  refine ⟨hst1, hlog1, by rw [hadv], by rw [hadv, hlog1], fun es => ?_⟩
  exact run_done _ es (by rw [hadv])

/-- C2 counterexample: `updateStatus("Offer")` delivered while the reminder
activity is in flight (state Remind, a non-terminal workflow state) does not
short-circuit the run: the main body then still performs the timer-driven
GracePeriod transition and the timer-driven archival, so the archive
activity runs after the terminal signal — refuting the claim for the state
Remind. -/
theorem C2_counterexample :
    ((run (initConfig testAppId 100 0)
      [Event.advance, Event.signal (Sig.updateStatus offerS none) 100,
       Event.advance, Event.advance, Event.advance]).log.map Prod.snd =
      [Activity.sendDeadlineReminder testAppId 100,
       Activity.updateApplicationStatus testAppId offerS none,
       Activity.archiveApplication testAppId]) ∧
    (run (initConfig testAppId 100 0)
      [Event.advance, Event.signal (Sig.updateStatus offerS none) 100,
       Event.advance, Event.advance, Event.advance]).phase = Phase.done := by
  exact ⟨by decide, by decide⟩

/-- C2 witness: starting from the initial configuration (suspended in the
deadline sleep), an Offer signal at time 5 followed by the timer firing
completes the run. -/
theorem C2_witness :
    (step (step (initConfig testAppId 100 0)
      (Event.signal (Sig.updateStatus offerS none) 5)) Event.advance).phase =
      Phase.done :=
  (C2_terminal_shortcircuit_amended (initConfig testAppId 100 0) offerS none 5
    (by decide) (Or.inl rfl)).2.2.1

/-- C7: the `cancelWorkflow` signal handler emits no activity, sets
`cancelled = true` and forces the status to Archived; delivering it twice is
the same as delivering it once; a cancel aimed at a no-longer-resolving
workflowId returns false without erroring and without touching the registry;
and in every failure-free schedule (with any number of cancel deliveries,
also after the workflow already reached Archived) the archive-application
activity is invoked at most once. -/
theorem C7_cancellation_idempotent :
    (∀ (st : WorkflowState) (now : Int),
      (cancelWorkflowHandler st now).2 = [] ∧
      (cancelWorkflowHandler st now).1.cancelled = true ∧
      (cancelWorkflowHandler st now).1.status = WStatus.archived) ∧
    (∀ (st : WorkflowState) (now : Int),
      cancelWorkflowHandler (cancelWorkflowHandler st now).1 now =
        cancelWorkflowHandler st now) ∧
    (∀ (st : WorkflowState) (now : Int), st.status = WStatus.archived →
      (cancelWorkflowHandler st now).1.status = WStatus.archived) ∧
    (∀ (srv : ServerState) (wid : String),
      TemporalClient.workflowExists srv wid = false →
      TemporalClient.cancelWorkflow srv wid = (false, srv)) ∧
    (∀ (a : String) (d s : Int) (es : List Event),
      (∀ e ∈ es, e ≠ Event.activityFail) →
      archCount (run (initConfig a d s) es) ≤ 1) := by
  refine ⟨fun st now => ⟨rfl, rfl, rfl⟩, fun st now => rfl,
    fun st now _ => rfl, fun srv wid h => ?_, fun a d s es hes => ?_⟩
  · simp [TemporalClient.cancelWorkflow, h]
  · exact (archInv_run es (initConfig a d s) hes (archInv_init a d s)).2

/-- C7 witness: two cancel signals followed by the timer firing produce at
most one archive call (in fact zero). -/
theorem C7_witness :
    archCount (run (initConfig testAppId 100 0)
      [Event.signal (Sig.cancelWorkflow none) 10,
       Event.signal (Sig.cancelWorkflow none) 20, Event.advance]) ≤ 1 :=
  C7_cancellation_idempotent.2.2.2.2 testAppId 100 0
    [Event.signal (Sig.cancelWorkflow none) 10,
     Event.signal (Sig.cancelWorkflow none) 20, Event.advance] (by decide)

/-- C10 (amended): whenever the workflow terminates, the queryable status is
Active, GracePeriod or Archived — never Created or Remind; and for every
schedule that delivers no `updateStatus("Interview")` and no `cancelWorkflow`
signal, termination implies status Archived.  The unrestricted claim fails:
an Interview signal during a wait, or a cancel while the reminder activity
is in flight, lets the run terminate with status Active respectively
GracePeriod (see the counterexample). -/
theorem C10_termination_amended (a : String) (d s : Int) (es : List Event) :
    ((run (initConfig a d s) es).phase = Phase.done →
      (run (initConfig a d s) es).st.status = WStatus.active ∨
      (run (initConfig a d s) es).st.status = WStatus.gracePeriod ∨
      (run (initConfig a d s) es).st.status = WStatus.archived) ∧
    ((∀ e ∈ es, eventIsInterview e = false ∧ eventIsCancel e = false) →
      (run (initConfig a d s) es).phase = Phase.done →
      (run (initConfig a d s) es).st.status = WStatus.archived) := by
  constructor
  · intro hd
    exact (phaseStatusInv_run (initConfig a d s) es
      (phaseStatusInv_init a d s)).2.2.2.2 hd
  · intro hes hd
    exact (noResetInv_run es (initConfig a d s) hes
      (noResetInv_init a d s)).2.2.2.2.2 hd

/-- C10 counterexample: an `updateStatus("Interview")` delivered during the
grace-period sleep resets the status to Active; the grace timer then fires,
the post-sleep check returns early, and the workflow terminates while the
queryable status is Active — refuting the claim that every termination path
ends with status Archived. -/
theorem C10_counterexample :
    (run (initConfig testAppId 100 0)
      [Event.advance, Event.advance,
       Event.signal (Sig.updateStatus interviewS none) 200, Event.advance]).phase =
        Phase.done ∧
    (run (initConfig testAppId 100 0)
      [Event.advance, Event.advance,
       Event.signal (Sig.updateStatus interviewS none) 200, Event.advance]).st.status =
        WStatus.active := by
  exact ⟨by decide, by decide⟩

/-- C10 witness: for the signal-free schedule of four timer firings the
terminated workflow reports status Archived. -/
theorem C10_witness :
    (run (initConfig testAppId 100 0)
      [Event.advance, Event.advance, Event.advance, Event.advance]).st.status =
      WStatus.archived :=
  (C10_termination_amended testAppId 100 0
    [Event.advance, Event.advance, Event.advance, Event.advance]).2
    (by decide) (by decide)

/-- The Application status string for an active application, used as the
pre-update row status in witnesses. -/
def activeS : String := "Active"

/-- A concrete application row holding a stored workflow pointer, used by the
C8 witness. -/
def testRow : AppRow :=
  { id := testAppId, status := activeS,
    workflowId := some (workflowIdFor testAppId) }

/-- C5: an input deadline that is not a well-formed date makes the workflow
start fail immediately with one of the two initialization errors of the
source; no configuration (hence no state, no armed timer and no activity
call) is ever produced. -/
theorem C5_invalid_deadline_fail_fast (a : String) (input : DeadlineInput)
    (s : Int) (h : wellFormedDeadline input = false) :
    (startWorkflow a input s = Except.error invalidDeadlineProvidedMsg ∨
     startWorkflow a input s = Except.error invalidDeadlineDateMsg) ∧
    (∀ c : Config, startWorkflow a input s ≠ Except.ok c) := by
  cases input with
  | dateObj o =>
    cases o with
    | none => exact ⟨Or.inr rfl, fun c hc => by cases hc⟩
    | some t => simp [wellFormedDeadline] at h
  | strInput o =>
    cases o with
    | none => exact ⟨Or.inr rfl, fun c hc => by cases hc⟩
    | some t => simp [wellFormedDeadline] at h
  | numInput o =>
    cases o with
    | none => exact ⟨Or.inr rfl, fun c hc => by cases hc⟩
    | some t => simp [wellFormedDeadline] at h
  | otherInput => exact ⟨Or.inl rfl, fun c hc => by cases hc⟩

/-- C5 witness: an unparseable deadline string fails the start with an
initialization error. -/
theorem C5_witness :
    startWorkflow testAppId (DeadlineInput.strInput none) 0 =
      Except.error invalidDeadlineProvidedMsg ∨
    startWorkflow testAppId (DeadlineInput.strInput none) 0 =
      Except.error invalidDeadlineDateMsg :=
  (C5_invalid_deadline_fail_fast testAppId (DeadlineInput.strInput none) 0
    (by decide)).1

/-- C6: when no run is registered under the applicationId-derived workflowId,
the first `startApplicationWorkflow` creates exactly one run and returns its
handle; the second call with the same applicationId does not error, returns
a handle to the very run created by the first call, and leaves the registry
unchanged — exactly one logical run exists. -/
theorem C6_idempotent_start (s : ServerState) (applicationId : String)
    (hfresh : s.runs.countP (fun r => r.1 == workflowIdFor applicationId) = 0) :
    (TemporalClient.startApplicationWorkflow s applicationId).2 =
      Except.ok { workflowId := workflowIdFor applicationId, runId := s.nextRun } ∧
    (TemporalClient.startApplicationWorkflow
      (TemporalClient.startApplicationWorkflow s applicationId).1
      applicationId).2 =
      Except.ok { workflowId := workflowIdFor applicationId, runId := s.nextRun } ∧
    (TemporalClient.startApplicationWorkflow
      (TemporalClient.startApplicationWorkflow s applicationId).1
      applicationId).1 =
      (TemporalClient.startApplicationWorkflow s applicationId).1 ∧
    ((TemporalClient.startApplicationWorkflow s applicationId).1).runs.countP
      (fun r => r.1 == workflowIdFor applicationId) = 1 := by
  have hfind : s.runs.find? (fun r => r.1 == workflowIdFor applicationId) = none := by
    rw [List.find?_eq_none]
    intro x hx
    have hx0 := List.countP_eq_zero.mp hfresh x hx
    simpa using hx0
  have h1 : TemporalClient.startApplicationWorkflow s applicationId =
      ({ runs := (workflowIdFor applicationId, s.nextRun) :: s.runs,
         nextRun := s.nextRun + 1 },
       Except.ok { workflowId := workflowIdFor applicationId, runId := s.nextRun }) := by
    simp [TemporalClient.startApplicationWorkflow, serverStart, hfind]
  have hfind2 : ((workflowIdFor applicationId, s.nextRun) :: s.runs).find?
      (fun r => r.1 == workflowIdFor applicationId) =
      some (workflowIdFor applicationId, s.nextRun) :=
    List.find?_cons_of_pos _ (by simp)
  have h2 : TemporalClient.startApplicationWorkflow
      (TemporalClient.startApplicationWorkflow s applicationId).1 applicationId =
      ((TemporalClient.startApplicationWorkflow s applicationId).1,
       Except.ok { workflowId := workflowIdFor applicationId, runId := s.nextRun }) := by
    rw [h1]
    simp [TemporalClient.startApplicationWorkflow, serverStart, getHandle, hfind2]
  refine ⟨by rw [h1], by rw [h2], by rw [h2], ?_⟩
  rw [h1]
  simp [List.countP_cons, hfresh]

/-- C6 witness: starting twice from an empty registry returns the same
handle the second time. -/
theorem C6_witness :
    (TemporalClient.startApplicationWorkflow
      (TemporalClient.startApplicationWorkflow
        { runs := [], nextRun := 0 } testAppId).1 testAppId).2 =
      Except.ok { workflowId := workflowIdFor testAppId, runId := 0 } :=
  (C6_idempotent_start { runs := [], nextRun := 0 } testAppId (by decide)).2.1

/-- C8 (amended): a signal (updateStatus or extendDeadline) aimed at a
workflowId that no longer resolves is not an error for the caller — the
client answers false without sending anything — and the POST status route
and the PUT application route then clear the stale workflowId on the row
while answering 200 success.  A cancel aimed at a stale workflowId is
likewise not an error (the client answers false and cancels nothing, and the
DELETE route still answers 200 and archives the row), but the DELETE route
does NOT clear the stored workflowId pointer — see the counterexample. -/
theorem C8_stale_pointer_amended (srv : ServerState) (row : AppRow)
    (wid status : String) (notes : Option String) (nd days : Int)
    (hw : row.workflowId = some wid)
    (hgone : TemporalClient.workflowExists srv wid = false) :
    TemporalClient.updateStatus srv wid status notes = (false, []) ∧
    TemporalClient.extendDeadline srv wid days = (false, []) ∧
    TemporalClient.cancelWorkflow srv wid = (false, srv) ∧
    postStatusRoute srv (some row) status notes =
      { httpStatus := 200, success := true,
        row := some { row with status := status, notes := notes, workflowId := none },
        sent := [] } ∧
    putApplicationRoute srv (some row) (some nd) =
      { httpStatus := 200, success := true,
        row := some { row with deadline := nd, workflowId := none },
        sent := [] } ∧
    deleteApplicationRoute srv (some row) =
      { httpStatus := 200, success := true,
        row := some { row with status := archivedS }, srv := srv } := by
  have hupd : TemporalClient.updateStatus srv wid status notes = (false, []) := by
    simp [TemporalClient.updateStatus, hgone]
  have hext : ∀ dy : Int, TemporalClient.extendDeadline srv wid dy = (false, []) := by
    intro dy
    simp [TemporalClient.extendDeadline, hgone]
  have hcan : TemporalClient.cancelWorkflow srv wid = (false, srv) := by
    simp [TemporalClient.cancelWorkflow, hgone]
  refine ⟨hupd, hext days, hcan, ?_, ?_, ?_⟩
  · simp only [postStatusRoute, hw]
    rw [hupd]
    rfl
  · simp only [putApplicationRoute, hw]
    rw [hext]
    rfl
  · simp only [deleteApplicationRoute, hw]
    rw [hcan]

/-- C8 counterexample: the DELETE route, asked to remove an application whose
stored workflowId no longer resolves (empty registry), answers 200 success —
not an error — but returns the archived row with the stale workflowId still
stored: the controller does not clear the pointer on the cancel path,
refuting the claim's universal over every signal or cancel. -/
theorem C8_counterexample :
    (deleteApplicationRoute { runs := [], nextRun := 0 } (some testRow)).success =
      true ∧
    (deleteApplicationRoute { runs := [], nextRun := 0 } (some testRow)).httpStatus =
      200 ∧
    ((deleteApplicationRoute { runs := [], nextRun := 0 } (some testRow)).row.map
      AppRow.workflowId) = some (some (workflowIdFor testAppId)) := by
  exact ⟨by decide, by decide, by decide⟩

/-- C8 witness: with an empty registry and a row pointing at the derived
workflowId, a deadline update through the PUT route clears the pointer and
succeeds. -/
theorem C8_witness :
    putApplicationRoute { runs := [], nextRun := 0 } (some testRow) (some 100) =
      { httpStatus := 200, success := true,
        row := some { testRow with deadline := 100, workflowId := none },
        sent := [] } :=
  (C8_stale_pointer_amended { runs := [], nextRun := 0 } testRow
    (workflowIdFor testAppId) interviewS none 100 0 rfl (by decide)).2.2.2.2.1

/-- C9: the cover-letter trigger activity runs exactly when download, extract
and save all ultimately succeed; when any of the three steps fails after its
retries, the pipeline records the Failed status, never records Completed,
never triggers cover-letter generation, and the workflow run itself ends in
error (it is not restarted from scratch — the run function is single-pass);
moreover a download failure also suppresses the extract and save steps. -/
theorem C9_resume_partial_failure (env : ResumeEnv) (a url : String) :
    (RAct.triggerCoverLetter a ∈ (runResumeExtraction env a url).1 ↔
      env.downloadOk = true ∧ env.extractOk = true ∧ env.saveOk = true) ∧
    ((env.downloadOk = false ∨ env.extractOk = false ∨ env.saveOk = false) →
      (∃ msg, (runResumeExtraction env a url).2 = Except.error msg) ∧
      RAct.setStatus a failedS ∈ (runResumeExtraction env a url).1 ∧
      RAct.setStatus a completedS ∉ (runResumeExtraction env a url).1 ∧
      RAct.triggerCoverLetter a ∉ (runResumeExtraction env a url).1) ∧
    (env.downloadOk = false →
      RAct.extract a ∉ (runResumeExtraction env a url).1 ∧
      RAct.save a ∉ (runResumeExtraction env a url).1) := by
  obtain ⟨dOk, eOk, sOk⟩ := env
  cases dOk <;> cases eOk <;> cases sOk <;>
    simp [runResumeExtraction, processingS, completedS, failedS,
      downloadErr, extractErr, saveErr]

/-- C9 witness: a download failure records the Failed status. -/
theorem C9_witness :
    RAct.setStatus testAppId failedS ∈
      (runResumeExtraction
        { downloadOk := false, extractOk := true, saveOk := true }
        testAppId testUrl).1 :=
  ((C9_resume_partial_failure
    { downloadOk := false, extractOk := true, saveOk := true }
    testAppId testUrl).2.1 (Or.inl rfl)).2.1

end JobTracker
